import Mathlib

/-!
# RenderX backend — verification of the segment-parallel video filter pipeline

Shallow embedding of `backend/video_processor.py` and `backend/main.py`.
Times and frame rates are modelled as rationals, video frames as elements of
an arbitrary type `α`, and the job table as an association list from job ids
to job records.  External effects (OpenCV reads/writes, ffmpeg subprocesses,
the process pool) are modelled by explicit data describing their outcomes,
threaded through the translated control flow.
-/

namespace RenderX

/-- Python `int()` applied to a rational: truncation toward zero
(`int(fps * self.segment_duration)` in `split_video`). -/
def pyInt (q : ℚ) : ℤ := if 0 ≤ q then ⌊q⌋ else ⌈q⌉

/-- Round-half-to-even to an integer, as Python's builtin `round` does. -/
def roundHalfEven (q : ℚ) : ℤ :=
  let f := ⌊q⌋
  let r := q - f
  if r < 1/2 then f
  else if 1/2 < r then f + 1
  else if f % 2 = 0 then f else f + 1

/-- Python `round(x, 2)`: banker's rounding at two decimal places. -/
def pyRound2 (q : ℚ) : ℚ := (roundHalfEven (q * 100) : ℚ) / 100

/-! ## Performance estimator (`VideoProcessor.process_video`, steps 5–6)

```
num_cores = cpu_count()
estimated_seq_time = par_time * min(num_cores, len(segment_paths))
speedup = estimated_seq_time / par_time if par_time > 0 else 1.0
```
-/

/-- Source: `estimated_seq_time = par_time * min(num_cores, len(segment_paths))`. -/
def estimated_seq_time (par_time : ℚ) (num_cores segments : ℕ) : ℚ :=
  par_time * (min num_cores segments : ℕ)

/-- Source: `speedup = estimated_seq_time / par_time if par_time > 0 else 1.0`. -/
def speedup (par_time : ℚ) (num_cores segments : ℕ) : ℚ :=
  if 0 < par_time then estimated_seq_time par_time num_cores segments / par_time else 1


/-! ## Video segmentation (`VideoProcessor.split_video`)

```
frames_per_segment = int(fps * self.segment_duration)
segment_count = int(np.ceil(total_frames / frames_per_segment))
...
while True:
    ret, frame = cap.read()
    if not ret: break
    if frame_count % frames_per_segment == 0:
        ...close previous segment, open the next...
    out.write(frame)
    frame_count += 1
```
-/

variable {α β : Type}

/-- Source: `frames_per_segment = int(fps * self.segment_duration)` — a truncation. -/
def frames_per_segment (fps segment_duration : ℚ) : ℤ :=
  pyInt (fps * segment_duration)

/-- The write loop of `split_video`: a new output segment is opened exactly
when `frame_count % frames_per_segment == 0`, so the source frames end up in
consecutive chunks of `L` frames each, the last chunk possibly shorter.
The loop runs once per source frame; `fuel` bounds the remaining iterations
(`chunks` below instantiates it with the number of frames). -/
def chunksAux (L : ℕ) : ℕ → List α → List (List α)
  | 0, _ => []
  | _ + 1, [] => []
  | fuel + 1, a :: l =>
    ((a :: l).take L) :: chunksAux L fuel ((a :: l).drop L)

/-- The chunking performed by the `split_video` loop. -/
def chunks (L : ℕ) (l : List α) : List (List α) :=
  chunksAux L l.length l

/-- Model of `VideoProcessor.split_video`, abstracted over the decoded source frames.
When `frames_per_segment` is not positive the source raises
`ZeroDivisionError` while computing `segment_count` (`fps` is never negative
in a readable video), modelled as `none`; otherwise the loop produces the
chunks of `frames_per_segment` frames. -/
def split_video (fps segment_duration : ℚ) (frames : List α) :
    Option (List (List α)) :=
  let L := frames_per_segment fps segment_duration
  if L ≤ 0 then none else some (chunks L.toNat frames)



/-! ## Segment files, filter workers and the worker pool
(`apply_filter_to_segment`, `VideoProcessor.process_parallel`,
`VideoProcessor.merge_segments`) -/

/-- A segment file on disk, with frames drawn from a type `α`.
`readable = false` models a file OpenCV cannot decode: `cv2.VideoCapture`
never raises — `cap.read()` immediately returns `ret = False` and every
property (`CAP_PROP_FPS`, width, height) is reported as `0`. -/
structure SegFile (α : Type) where
  readable : Bool
  frames : List α
  fps : ℚ
  width : ℕ
  height : ℕ
deriving Repr, DecidableEq

/-- The frames `cap.read()` yields from a segment file. -/
def SegFile.readFrames (s : SegFile α) : List α :=
  if s.readable then s.frames else []

/-- Source: `cap.get(cv2.CAP_PROP_FPS)`. -/
def SegFile.readFps (s : SegFile α) : ℚ := if s.readable then s.fps else 0

/-- Source: `int(cap.get(cv2.CAP_PROP_FRAME_WIDTH))`. -/
def SegFile.readWidth (s : SegFile α) : ℕ := if s.readable then s.width else 0

/-- Source: `int(cap.get(cv2.CAP_PROP_FRAME_HEIGHT))`. -/
def SegFile.readHeight (s : SegFile α) : ℕ := if s.readable then s.height else 0

/-- Model of `apply_filter_to_segment` (the worker body): opens the input segment,
copies its fps/width/height into the writer, applies the filter to every
frame it can read, and writes the output segment file. -/
def apply_filter_to_segment (filt : α → α) (s : SegFile α) : SegFile α :=
  { readable := true
    frames := s.readFrames.map filt
    fps := s.readFps
    width := s.readWidth
    height := s.readHeight }

/-- One completion event per finished worker: the input's position paired
with that worker's output.  `order` is the order in which workers happen to
finish; a worker can only finish on an input that exists. -/
def completionEvents (f : α → β) (args : List α) (order : List ℕ) :
    List (ℕ × β) :=
  order.filterMap fun i => (args[i]?).map fun a => (i, f a)

/-- Model of `multiprocessing.Pool.map`: it collects each worker's result at the slot of
its input position, so the returned list is ordered by input position no
matter when each worker finished. -/
def pool_map (f : α → β) (args : List α) (order : List ℕ) :
    List (Option β) :=
  (List.range args.length).map fun i =>
    ((completionEvents f args order).find? fun e => e.1 == i).map Prod.snd

/-- Model of `VideoProcessor.process_parallel`: hands every segment to
`apply_filter_to_segment` through the pool.  (The measured wall-clock
duration it also returns is part of `PipelineEnv` below.) -/
def process_parallel (filt : α → α) (segs : List (SegFile α))
    (order : List ℕ) : List (Option (SegFile α)) :=
  pool_map (apply_filter_to_segment filt) segs order


/-! ## Segment merging (`VideoProcessor.merge_segments`) -/

/-- The only exception `merge_segments` itself raises:
`raise Exception("No segments to merge")`. -/
inductive MergeError
  | emptyMergeSet
deriving Repr, DecidableEq

/-- A merged output video. -/
structure Video (α : Type) where
  fps : ℚ
  width : ℕ
  height : ℕ
  frames : List α
deriving Repr, DecidableEq

/-- Model of `VideoProcessor.merge_segments`: raises on an empty segment list, reads
the output fps/width/height from the *first* segment file, then re-reads
every segment file in list order and appends every frame it yields.  A
segment OpenCV cannot re-read simply yields no frames (`cap.read()` returns
`ret = False` at once); no error is raised for it. -/
def merge_segments (segs : List (SegFile α)) : Except MergeError (Video α) :=
  match segs with
  | [] => .error .emptyMergeSet
  | s :: _ =>
    .ok { fps := s.readFps
          width := s.readWidth
          height := s.readHeight
          frames := (segs.map SegFile.readFrames).flatten }

/-! ## The full pipeline run (`VideoProcessor.process_video`)

The external effects of one run, as far as the returned result dictionary is
concerned, are the audio-extraction outcome, the measured parallel duration,
the segment count, the CPU count, whether steps 1–3 raised, and the remux
outcome.  Note that the source *discards* the return value of
`merge_audio_with_video` (step 4) — `audio_preserved` in the result is the
`has_audio` flag from step 0, not the remux outcome.
-/

/-- The `FILTERS` dictionary keys of `video_processor.py`. -/
def FILTERS : List String :=
  ["grayscale", "blur", "sepia", "brightness", "contrast",
   "saturation", "warm_tone", "cool_tone", "edge_detection"]

/-- The `{'success': True, ...}` dictionary built by `process_video`. -/
structure ProcessOk where
  output_path : String
  sequential_time : ℚ
  parallel_time : ℚ
  speedup : ℚ
  segments_processed : ℕ
  cpu_cores_used : ℕ
  audio_preserved : Bool
deriving Repr, DecidableEq

/-- Result of `process_video`: either a success dictionary or
`{'success': False, 'error': msg}`; its body is wrapped in `try/except`, so
it never raises. -/
inductive ProcessResult
  | ok (r : ProcessOk)
  | err (msg : String)
deriving Repr, DecidableEq

def ProcessResult.isSuccess : ProcessResult → Bool
  | .ok _ => true
  | .err _ => false

def ProcessResult.audioPreservedField : ProcessResult → Option Bool
  | .ok r => some r.audio_preserved
  | .err _ => none

def ProcessResult.speedupField : ProcessResult → Option ℚ
  | .ok r => some r.speedup
  | .err _ => none

def ProcessResult.sequentialTimeField : ProcessResult → Option ℚ
  | .ok r => some r.sequential_time
  | .err _ => none

/-- Outcomes of the external steps of one `process_video` run:
* `has_audio` — return value of `extract_audio` (step 0; `false` also covers
  a missing ffmpeg, which `extract_audio` swallows);
* `audio_file_exists` — `os.path.exists(audio_path)` checked before remux;
* `remux_ok` — return value of `merge_audio_with_video` (step 4; `false` on
  a non-zero ffmpeg exit or a missing ffmpeg binary);
* `fatal` — `some msg` when segmentation, parallel filtering or the merge
  (steps 1–3) raises an exception with message `msg`;
* `par_time` — wall-clock duration measured around the pool (step 2);
* `segments` — `len(segment_paths)`;
* `num_cores` — `cpu_count()`;
* `output_path` — `os.path.join(self.output_dir, output_filename)`. -/
structure PipelineEnv where
  has_audio : Bool
  audio_file_exists : Bool
  remux_ok : Bool
  fatal : Option String
  par_time : ℚ
  segments : ℕ
  num_cores : ℕ
  output_path : String
deriving Repr, DecidableEq

/-- Model of `VideoProcessor.process_video`: the whole workflow inside one
`try/except`.  The remux step runs only when `has_audio` and the audio file
exists, and its boolean result is discarded; `audio_preserved := has_audio`
regardless.  All times in the result are rounded with `round(x, 2)`. -/
def process_video (env : PipelineEnv) (filter_type : String) : ProcessResult :=
  if filter_type ∉ FILTERS then
    .err ("Unknown filter: " ++ filter_type)
  else
    match env.fatal with
    | some msg => .err msg
    | none =>
      .ok { output_path := env.output_path
            sequential_time :=
              pyRound2 (estimated_seq_time env.par_time env.num_cores env.segments)
            parallel_time := pyRound2 env.par_time
            speedup := pyRound2 (speedup env.par_time env.num_cores env.segments)
            segments_processed := env.segments
            cpu_cores_used := env.num_cores
            audio_preserved := env.has_audio }

/-! ## Job table and orchestration (`main.py`)

The `jobs` dictionary is modelled as an association list from job id to job
record; `updateJob` models in-place assignment to an existing key.
-/

/-- One record of the `jobs` table.  Fields written by later stages are
optional and start out absent. -/
structure Job where
  status : String
  filename : String
  file_path : String
  filter_type : Option String
  sequential_time : Option ℚ
  parallel_time : Option ℚ
  speedup : Option ℚ
  segments_processed : Option ℕ
  cpu_cores_used : Option ℕ
  output_filename : Option String
  output_path : Option String
  error : Option String
deriving Repr, DecidableEq

/-- The `jobs` dictionary. -/
abbrev JobTable : Type := List (String × Job)

/-- Reads `jobs[job_id]` (and decides `job_id in jobs`). -/
def JobTable.lookup (jobs : JobTable) (job_id : String) : Option Job :=
  List.lookup job_id jobs

/-- Assignment `jobs[job_id] = job` on a key that is already present. -/
def JobTable.update (jobs : JobTable) (job_id : String) (j : Job) : JobTable :=
  List.map (fun kv => if kv.1 = job_id then (job_id, j) else kv) jobs

/-- The `valid_filters` list of the `/process` handler in `main.py`. -/
def valid_filters : List String :=
  ["grayscale", "blur", "sepia", "brightness", "contrast",
   "saturation", "warm_tone", "cool_tone", "edge_detection"]

/-- Errors raised as `HTTPException(status_code=..., detail=...)`. -/
inductive ApiError
  | httpException (status_code : ℕ) (detail : String)
deriving Repr, DecidableEq

/-- The `/process` handler `start_processing`: 404 when the job id is
unknown, 400 when the filter is not in `valid_filters`, and otherwise — with
no check of the job's current status — sets `status = 'processing'`, records
the filter and acknowledges.  Errors are raised before any mutation, so the
table is returned unchanged alongside them.  (The background task it then
spawns is modelled separately by `process_in_background`.) -/
def start_processing (jobs : JobTable) (job_id filter_type : String) :
    Except ApiError Unit × JobTable :=
  match jobs.lookup job_id with
  | none => (.error (.httpException 404 "Job not found"), jobs)
  | some job =>
    if filter_type ∈ valid_filters then
      (.ok (), jobs.update job_id
        { job with status := "processing", filter_type := some filter_type })
    else
      (.error (.httpException 400 "Invalid filter type"), jobs)

/-- Model of `process_video_task`: wraps the processor call in `try/except` and always
returns a result dictionary (exceptions become `{'success': False, ...}`);
`process_video` already catches everything itself. -/
def process_video_task (env : PipelineEnv) (filter_type : String) :
    ProcessResult :=
  process_video env filter_type

/-- Python `os.path.basename`. -/
def basename (p : String) : String := (p.splitOn "/").getLastD p

/-- Model of `process_in_background` from the point where the executor has returned
`result`: the `try` block reads `job = jobs[job_id]` and stores the outcome
(`completed` plus metrics, or `failed` plus the message).  The `except`
block — intended to turn any error into the `failed` state — itself begins
with `jobs[job_id]['status'] = 'failed'`, so when the job record is gone the
`KeyError` caught from the `try` block is followed by a second, uncaught
`KeyError`, which escapes the background task (modelled as `.error`). -/
def process_in_background (jobs : JobTable) (job_id : String)
    (result : ProcessResult) : Except String JobTable :=
  match jobs.lookup job_id with
  | some job =>
    match result with
    | .ok r =>
      .ok (jobs.update job_id
        { job with
            status := "completed"
            sequential_time := some r.sequential_time
            parallel_time := some r.parallel_time
            speedup := some r.speedup
            segments_processed := some r.segments_processed
            cpu_cores_used := some r.cpu_cores_used
            output_filename := some (basename r.output_path)
            output_path := some r.output_path })
    | .err msg =>
      .ok (jobs.update job_id { job with status := "failed", error := some msg })
  | none => .error "KeyError"

/-- What `load_jobs` can find on disk at startup. -/
inductive DiskState (τ : Type)
  | missing
  | corrupt
  | valid (t : τ)

/-- Model of `load_jobs`: when `jobs.json` does not exist, the module-level `jobs`
keeps its prior value (`{}` at import time); when reading or parsing raises,
the handler assigns `jobs = {}`.  The function always returns — a bad file
is never a startup failure. -/
def load_jobs (prev : JobTable) (disk : DiskState JobTable) : JobTable :=
  match disk with
  | .missing => prev
  | .corrupt => []
  | .valid t => t

/-- A job record as it stands after a successful run. -/
def completedJob : Job :=
  { status := "completed"
    filename := "clip.mp4"
    file_path := "uploads/j1_clip.mp4"
    filter_type := some "blur"
    sequential_time := some 4
    parallel_time := some 2
    speedup := some 2
    segments_processed := some 2
    cpu_cores_used := some 2
    output_filename := some "j1_processed.mp4"
    output_path := some "outputs/j1_processed.mp4"
    error := none }

/-- A job record as it stands right after `/upload`. -/
def uploadedJob : Job :=
  { status := "uploaded"
    filename := "clip.mp4"
    file_path := "uploads/j2_clip.mp4"
    filter_type := none
    sequential_time := none
    parallel_time := none
    speedup := none
    segments_processed := none
    cpu_cores_used := none
    output_filename := none
    output_path := none
    error := none }

/-! ## Helper lemmas -/

theorem chunksAux_nil (L fuel : ℕ) : chunksAux L fuel ([] : List α) = [] := by
  cases fuel <;> rfl

theorem getLast?_single (x : α) : [x].getLast? = some x := rfl

/-- Concatenating what `chunksAux` split preserves the frame sequence. -/
theorem chunksAux_flatten (L : ℕ) (hL : L ≠ 0) :
    ∀ (fuel : ℕ) (l : List α), l.length ≤ fuel →
      (chunksAux L fuel l).flatten = l := by
  intro fuel
  induction fuel with
  | zero =>
    intro l h
    have hnil : l = [] := List.eq_nil_of_length_eq_zero (by omega)
    subst hnil
    rw [chunksAux_nil]
    rfl
  | succ fuel ih =>
    intro l h
    match l with
    | [] => rw [chunksAux_nil]; rfl
    | a :: l =>
      have hdl : ((a :: l).drop L).length ≤ fuel := by
        simp only [List.length_drop, List.length_cons] at h ⊢
        omega
      rw [chunksAux, List.flatten_cons, ih ((a :: l).drop L) hdl,
        List.take_append_drop]

/-- The segments of `split_video` concatenate back to the source frame
sequence: no frame is lost, duplicated or reordered. -/
theorem chunks_flatten (L : ℕ) (hL : L ≠ 0) (l : List α) :
    (chunks L l).flatten = l :=
  chunksAux_flatten L hL l.length l le_rfl

/-- Counting: `chunksAux` produces `⌈F / L⌉` chunks. -/
theorem chunksAux_length (L : ℕ) (hL : L ≠ 0) :
    ∀ (fuel : ℕ) (l : List α), l.length ≤ fuel →
      (chunksAux L fuel l).length = (l.length + L - 1) / L := by
  have h2 : 0 < L := Nat.pos_of_ne_zero hL
  intro fuel
  induction fuel with
  | zero =>
    intro l h
    have hnil : l = [] := List.eq_nil_of_length_eq_zero (by omega)
    subst hnil
    rw [chunksAux_nil]
    simp [Nat.div_eq_of_lt (by omega : L - 1 < L)]
  | succ fuel ih =>
    intro l h
    match l with
    | [] =>
      rw [chunksAux_nil]
      simp [Nat.div_eq_of_lt (by omega : L - 1 < L)]
    | a :: l =>
      have hdl : ((a :: l).drop L).length ≤ fuel := by
        simp only [List.length_drop, List.length_cons] at h ⊢
        omega
      rw [chunksAux, List.length_cons, ih ((a :: l).drop L) hdl]
      simp only [List.length_drop, List.length_cons]
      rcases le_or_lt (l.length + 1) L with hle | hlt
      · have e1 : l.length + 1 - L = 0 := by omega
        have e2 : (0 + L - 1) / L = 0 := Nat.div_eq_of_lt (by omega)
        have e3 : (l.length + 1 + L - 1) / L = 1 :=
          Nat.div_eq_of_lt_le (by omega) (by omega)
        rw [e1, e2, e3]
      · have e1 : l.length + 1 + L - 1 = ((l.length + 1 - L) + L - 1) + L := by
          omega
        rw [e1, Nat.add_div_right _ h2]

/-- Counting: `split_video` produces `⌈F / L⌉` segments
(`segment_count = int(np.ceil(total_frames / frames_per_segment))`). -/
theorem chunks_length (L : ℕ) (hL : L ≠ 0) (l : List α) :
    (chunks L l).length = (l.length + L - 1) / L :=
  chunksAux_length L hL l.length l le_rfl

theorem chunksAux_ne_nil (L fuel : ℕ) (l : List α) (hfuel : l.length ≤ fuel)
    (hl : l ≠ []) : chunksAux L fuel l ≠ [] := by
  match fuel, l with
  | 0, l => exact absurd (List.eq_nil_of_length_eq_zero (by omega)) hl
  | fuel + 1, [] => exact absurd rfl hl
  | fuel + 1, a :: l => rw [chunksAux]; exact List.cons_ne_nil _ _

/-- The final chunk holds `F mod L` frames, or a full `L` frames when `L`
divides `F`. -/
theorem chunksAux_getLast (L : ℕ) (hL : L ≠ 0) :
    ∀ (fuel : ℕ) (l : List α), l.length ≤ fuel → l ≠ [] →
      ((chunksAux L fuel l).getLast?).map List.length =
        some (if l.length % L = 0 then L else l.length % L) := by
  have h2 : 0 < L := Nat.pos_of_ne_zero hL
  intro fuel
  induction fuel with
  | zero =>
    intro l h hl
    exact absurd (List.eq_nil_of_length_eq_zero (by omega)) hl
  | succ fuel ih =>
    intro l h hl
    match l with
    | [] => exact absurd rfl hl
    | a :: l =>
      have hdroplen : ((a :: l).drop L).length ≤ fuel := by
        simp only [List.length_drop, List.length_cons] at h ⊢
        omega
      rw [chunksAux]
      rcases eq_or_ne ((a :: l).drop L) [] with hdrop | hdrop
      · have hle : (a :: l).length ≤ L := by
          have := congrArg List.length hdrop
          simp only [List.length_drop, List.length_nil] at this
          omega
        rw [hdrop, chunksAux_nil, getLast?_single, Option.map_some',
          List.length_take, min_eq_right hle]
        simp only [List.length_cons] at hle ⊢
        rcases eq_or_lt_of_le hle with heq | hlt
        · rw [heq]; simp [Nat.mod_self]
        · have hmod : (l.length + 1) % L = l.length + 1 := Nat.mod_eq_of_lt hlt
          rw [if_neg (by omega), hmod]
      · have hLlt : L < (a :: l).length := by
          by_contra hcon
          exact hdrop (List.drop_eq_nil_of_le (by omega))
        obtain ⟨b, t, hbt⟩ := List.exists_cons_of_ne_nil
          (chunksAux_ne_nil L fuel ((a :: l).drop L) hdroplen hdrop)
        rw [hbt, List.getLast?_cons_cons, ← hbt,
          ih ((a :: l).drop L) hdroplen hdrop]
        have hmod : ((a :: l).drop L).length % L = (a :: l).length % L := by
          simp only [List.length_drop, List.length_cons] at hLlt ⊢
          conv_rhs => rw [(by omega : l.length + 1 = ((l.length + 1) - L) + L)]
          rw [Nat.add_mod_right]
        rw [hmod]

/-- The final segment of `split_video` holds `F mod L` frames, or a full `L`
frames when `L` divides `F`. -/
theorem chunks_getLast (L : ℕ) (hL : L ≠ 0) (l : List α) (hl : l ≠ []) :
    ((chunks L l).getLast?).map List.length =
      some (if l.length % L = 0 then L else l.length % L) :=
  chunksAux_getLast L hL l.length l le_rfl hl

theorem find?_completionEvents (f : α → β) (args : List α) (order : List ℕ)
    (i : ℕ) (a : α) (ha : args[i]? = some a) (hi : i ∈ order) :
    (completionEvents f args order).find? (fun e => e.1 == i) =
      some (i, f a) := by
  induction order with
  | nil => cases hi
  | cons j tl ih =>
    by_cases hj : j = i
    · subst hj
      simp only [completionEvents, List.filterMap_cons, ha, Option.map_some']
      rw [List.find?_cons_of_pos _ (by simp)]
    · cases hjm : args[j]? with
      | none =>
        simp only [completionEvents, List.filterMap_cons, hjm, Option.map_none']
        exact ih (List.mem_of_ne_of_mem (Ne.symm hj) hi)
      | some b =>
        simp only [completionEvents, List.filterMap_cons, hjm, Option.map_some']
        rw [List.find?_cons_of_neg _ (by simp [hj])]
        exact ih (List.mem_of_ne_of_mem (Ne.symm hj) hi)

/-- As long as every index was eventually completed by some worker,
`pool_map` returns exactly the image of the inputs, in input order:
completion order is irrelevant. -/
theorem pool_map_eq (f : α → β) (args : List α) (order : List ℕ)
    (horder : ∀ i < args.length, i ∈ order) :
    pool_map f args order = args.map (fun a => some (f a)) := by
  apply List.ext_getElem
  · simp [pool_map]
  · intro i h1 h2
    simp only [pool_map, List.length_map, List.length_range] at h1
    simp only [pool_map, List.getElem_map, List.getElem_range]
    rw [find?_completionEvents f args order i args[i]
        (List.getElem?_eq_getElem h1) (horder i h1)]
    simp

theorem roundHalfEven_intCast (z : ℤ) : roundHalfEven (z : ℚ) = z := by
  simp only [roundHalfEven, Int.floor_intCast, sub_self]
  norm_num

theorem pyRound2_natCast (n : ℕ) : pyRound2 (n : ℚ) = n := by
  rw [pyRound2]
  rw [show ((n : ℚ) * 100) = ((n * 100 : ℤ) : ℚ) by push_cast; ring,
    roundHalfEven_intCast]
  push_cast
  exact mul_div_cancel_right₀ _ (by norm_num)

/-- For a positive measured duration the division cancels exactly: the
computed speedup is the integer `min(num_cores, segments)`. -/
theorem speedup_eq_min (P : ℚ) (W S : ℕ) (hP : 0 < P) :
    speedup P W S = ((min W S : ℕ) : ℚ) := by
  rw [speedup, if_pos hP, estimated_seq_time,
    mul_div_cancel_left₀ _ (ne_of_gt hP)]

theorem apply_filter_readFrames (filt : α → α) (s : SegFile α) :
    (apply_filter_to_segment filt s).readFrames = s.readFrames.map filt := rfl

/-- Merging the per-segment worker outputs, in index order. -/
theorem merge_segments_map_apply (filt : α → α) (s0 : SegFile α)
    (rest : List (SegFile α)) :
    merge_segments ((s0 :: rest).map (apply_filter_to_segment filt)) =
      .ok { fps := s0.readFps
            width := s0.readWidth
            height := s0.readHeight
            frames :=
              ((s0 :: rest).map (fun s => s.readFrames.map filt)).flatten } := by
  rw [List.map_cons, merge_segments]
  simp only [Except.ok.injEq, Video.mk.injEq]
  refine ⟨rfl, rfl, rfl, ?_⟩
  rw [← List.map_cons, List.map_map]
  rfl

/-! ## Claims -/

/-- C1, counterexample. A `/process` request on a job whose status is
`'completed'` is *not* rejected: `start_processing` checks only that the job
exists and the filter is known, acknowledges with success, and moves the
status back to `'processing'`. -/
theorem start_processing_completed_job_reprocessed :
    (start_processing [("j1", completedJob)] "j1" "grayscale").1 = .ok () ∧
    ((start_processing [("j1", completedJob)] "j1" "grayscale").2.lookup
        "j1").map Job.status = some "processing" := by
  constructor <;> rfl

/-- C1, amended. `start_processing` implements the idempotent-overwrite
policy, not rejection: for *any* existing job — whatever its current status,
`'completed'` included — a request with a known filter succeeds, sets the
status to `'processing'` and overwrites the recorded filter.  Only an
unknown job id (404) or an unknown filter (400) is rejected. -/
theorem start_processing_overwrite_policy (jobs : JobTable)
    (job_id filter_type : String) (job : Job)
    (hjob : jobs.lookup job_id = some job)
    (hft : filter_type ∈ valid_filters) :
    start_processing jobs job_id filter_type =
      (.ok (), jobs.update job_id
        { job with status := "processing", filter_type := some filter_type }) := by
  simp [start_processing, hjob, hft]

/-- C1, witness. The amended policy at a concrete completed job. -/
theorem start_processing_overwrite_policy_witness :
    start_processing [("j1", completedJob)] "j1" "blur" =
      (.ok (), JobTable.update [("j1", completedJob)] "j1"
        { completedJob with
            status := "processing", filter_type := some "blur" }) :=
  start_processing_overwrite_policy _ _ _ _ rfl (by decide)

/-- C2. The estimator returns `P × min(W, S)` as the estimated
sequential duration; the speedup is that estimate divided by `P` when
`P > 0` and defaults to `1.0` at `P = 0`; consequently the speedup is at
least `1.0` whenever `P > 0`. -/
theorem estimator_spec (P : ℚ) (W S : ℕ) (hP : 0 ≤ P) (hW : 1 ≤ W)
    (hS : 1 ≤ S) :
    estimated_seq_time P W S = P * ((min W S : ℕ) : ℚ) ∧
    (0 < P → speedup P W S = estimated_seq_time P W S / P) ∧
    (P = 0 → speedup P W S = 1) ∧
    (0 < P → 1 ≤ speedup P W S) := by
  refine ⟨rfl, fun h => by rw [speedup, if_pos h],
    fun h => by rw [speedup, if_neg (by rw [h]; exact lt_irrefl 0)],
    fun h => ?_⟩
  rw [speedup_eq_min P W S h]
  exact_mod_cast le_min hW hS

/-- C2, witness. The estimator at `P = 2`, `W = 4`, `S = 3`. -/
theorem estimator_spec_witness :
    (0:ℚ) ≤ 2 ∧ (1:ℕ) ≤ 4 ∧ (1:ℕ) ≤ 3 ∧ (0 < (2:ℚ) → 1 ≤ speedup 2 4 3) :=
  ⟨by norm_num, by norm_num, by norm_num,
    (estimator_spec 2 4 3 (by norm_num) (by norm_num) (by norm_num)).2.2.2⟩

/-- C3, counterexample. `split_video` truncates, it does not round:
at frame rate `0.27` and the default ten-second segment duration,
`fps * duration = 2.7`, so the code uses `int(2.7) = 2` frames per segment
where the claim's `round(2.7) = 3` would predict `⌈6/3⌉ = 2` segments —
but six source frames actually produce three segments of two frames. -/
theorem split_video_truncation_counterexample :
    frames_per_segment (27/100) 10 = 2 ∧
    round ((27/100 : ℚ) * 10) = 3 ∧
    split_video (27/100) 10 (List.range 6) =
      some [[0, 1], [2, 3], [4, 5]] ∧
    (6 + 3 - 1) / 3 = 2 := by
  have h : frames_per_segment (27/100) 10 = 2 := by
    norm_num [frames_per_segment, pyInt]
  have hsv : split_video (27/100) 10 (List.range 6) =
      some [[0, 1], [2, 3], [4, 5]] := by
    simp only [split_video, h]
    rfl
  exact ⟨h, by norm_num [round_eq], hsv, rfl⟩

/-- C3, amended. With the code's truncated frames-per-segment
`L = int(r × d)` (not `round`): whenever `L ≥ 1`, `split_video` produces
`⌈F / L⌉` segments whose concatenation in index order is exactly the source
frame sequence, and the last segment has `F mod L` frames (`L` when `L`
divides `F`). -/
theorem split_video_spec (fps d : ℚ) (frames : List α)
    (hL : 1 ≤ frames_per_segment fps d) :
    ∃ segs, split_video fps d frames = some segs ∧
      segs.flatten = frames ∧
      segs.length =
        (frames.length + (frames_per_segment fps d).toNat - 1) /
          (frames_per_segment fps d).toNat ∧
      (frames ≠ [] →
        (segs.getLast?).map List.length =
          some (if frames.length % (frames_per_segment fps d).toNat = 0
                then (frames_per_segment fps d).toNat
                else frames.length % (frames_per_segment fps d).toNat)) := by
  have hL0 : (frames_per_segment fps d).toNat ≠ 0 := by omega
  refine ⟨chunks (frames_per_segment fps d).toNat frames, ?_,
    chunks_flatten _ hL0 frames, chunks_length _ hL0 frames,
    fun hne => chunks_getLast _ hL0 frames hne⟩
  simp only [split_video]
  rw [if_neg (by omega : ¬ frames_per_segment fps d ≤ 0)]

/-- C3, witness. Four frames at 3 fps with one-second segments:
`L = 3`, two segments, last segment of one frame. -/
theorem split_video_spec_witness :
    ∃ segs, split_video (3:ℚ) 1 ([10, 20, 30, 40] : List ℕ) = some segs ∧
      segs.flatten = [10, 20, 30, 40] ∧
      segs.length =
        (([10, 20, 30, 40] : List ℕ).length +
            (frames_per_segment 3 1).toNat - 1) /
          (frames_per_segment 3 1).toNat ∧
      (([10, 20, 30, 40] : List ℕ) ≠ [] →
        (segs.getLast?).map List.length =
          some (if ([10, 20, 30, 40] : List ℕ).length %
                    (frames_per_segment 3 1).toNat = 0
                then (frames_per_segment 3 1).toNat
                else ([10, 20, 30, 40] : List ℕ).length %
                  (frames_per_segment 3 1).toNat)) :=
  split_video_spec 3 1 _ (by norm_num [frames_per_segment, pyInt])

/-- C4. Filtered segments are merged in original segment index order:
for any two completion orders that eventually finish every segment,
`pool.map` returns the same index-ordered result list — exactly the image
of the inputs — and merging appends every result's frames in full, in index
order, with the output taking fps/width/height from the first result. -/
theorem merge_order_invariant (filt : α → α) (segs : List (SegFile α))
    (order₁ order₂ : List ℕ)
    (h1 : ∀ i < segs.length, i ∈ order₁)
    (h2 : ∀ i < segs.length, i ∈ order₂) :
    process_parallel filt segs order₁ = process_parallel filt segs order₂ ∧
    process_parallel filt segs order₁ =
      segs.map (fun s => some (apply_filter_to_segment filt s)) ∧
    (∀ s0 rest, segs = s0 :: rest →
      merge_segments (segs.map (apply_filter_to_segment filt)) =
        .ok { fps := s0.readFps
              width := s0.readWidth
              height := s0.readHeight
              frames :=
                (segs.map (fun s => s.readFrames.map filt)).flatten }) := by
  refine ⟨?_, pool_map_eq _ _ _ h1, ?_⟩
  · rw [process_parallel, process_parallel, pool_map_eq _ _ _ h1,
      pool_map_eq _ _ _ h2]
  · rintro s0 rest rfl
    exact merge_segments_map_apply filt s0 rest

/-- C4, witness. Two segments, workers finishing in swapped order. -/
theorem merge_order_invariant_witness :
    process_parallel (fun n => n + 1)
        [(⟨true, [1, 2], 30, 4, 4⟩ : SegFile ℕ), ⟨true, [3], 30, 4, 4⟩]
        [1, 0] =
      process_parallel (fun n => n + 1)
        [(⟨true, [1, 2], 30, 4, 4⟩ : SegFile ℕ), ⟨true, [3], 30, 4, 4⟩]
        [0, 1] :=
  (merge_order_invariant (fun n => n + 1)
    [⟨true, [1, 2], 30, 4, 4⟩, ⟨true, [3], 30, 4, 4⟩] [1, 0] [0, 1]
    (by decide) (by decide)).1

/-- C5, counterexample. A run in which audio was extracted
(`has_audio = true`) but the remux failed (`remux_ok = false`) still
completes — and reports `audio_preserved = true`, not `false`:
`process_video` discards the return value of `merge_audio_with_video` and
stores the extraction flag. -/
theorem remux_failure_audio_flag_counterexample :
    (process_video ⟨true, true, false, none, 2, 3, 4, "outputs/o.mp4"⟩
        "grayscale").isSuccess = true ∧
    (process_video ⟨true, true, false, none, 2, 3, 4, "outputs/o.mp4"⟩
        "grayscale").audioPreservedField = some true := by
  constructor <;> rfl

/-- C5, amended. Remux failure is indeed never fatal: with a known
filter and no fatal step, the job completes whatever `remux_ok` is, and the
whole result — `audio_preserved` included — is independent of the remux
outcome; `audio_preserved` reports whether audio was *extracted*
(`has_audio`), so it stays `true` when the remux fails after a successful
extraction. -/
theorem remux_failure_nonfatal (env : PipelineEnv) (ft : String)
    (hft : ft ∈ FILTERS) (hfatal : env.fatal = none) :
    (process_video env ft).isSuccess = true ∧
    (∀ b : Bool,
      process_video { env with remux_ok := b } ft = process_video env ft) ∧
    (process_video env ft).audioPreservedField = some env.has_audio := by
  obtain ⟨ha, ae, ro, fat, pt, sg, nc, op⟩ := env
  simp only at hfatal
  subst hfatal
  refine ⟨?_, fun b => ?_, ?_⟩ <;>
    simp [process_video, hft, ProcessResult.isSuccess,
      ProcessResult.audioPreservedField]

/-- C5, witness. The amended statement at a concrete environment with a
failed remux. -/
theorem remux_failure_nonfatal_witness :
    (process_video ⟨true, true, false, none, 5, 2, 8, "outputs/p.mp4"⟩
        "blur").isSuccess = true ∧
    (process_video ⟨true, true, false, none, 5, 2, 8, "outputs/p.mp4"⟩
        "blur").audioPreservedField = some true :=
  ⟨(remux_failure_nonfatal ⟨true, true, false, none, 5, 2, 8, "outputs/p.mp4"⟩
      "blur" (by decide) rfl).1,
   (remux_failure_nonfatal ⟨true, true, false, none, 5, 2, 8, "outputs/p.mp4"⟩
      "blur" (by decide) rfl).2.2⟩

/-- C6. When the pipeline run completes after the job record was
deleted, the background task does *not* discard the result safely: the
`try` block's `jobs[job_id]` raises `KeyError`, and the `except` handler's
own first statement `jobs[job_id]['status'] = 'failed'` raises `KeyError`
again, uncaught — the exception escapes the background execution lane
(both for a failed and for a successful run result). -/
theorem process_in_background_deleted_job_keyerror :
    process_in_background ([] : JobTable) "j1" (.err "boom") =
      .error "KeyError" ∧
    process_in_background [("other", uploadedJob)] "j1"
        (.ok ⟨"outputs/o.mp4", 4, 2, 2, 2, 2, true⟩) =
      .error "KeyError" := by
  constructor <;> rfl

/-- C7. A `/process` request naming a filter outside the nine-filter
catalog is rejected with HTTP 400 and the job table — hence the job's
`'uploaded'` status and absent filter — is left untouched. -/
theorem start_processing_unknown_filter (jobs : JobTable)
    (job_id filter_type : String) (job : Job)
    (hjob : jobs.lookup job_id = some job)
    (hft : filter_type ∉ valid_filters) :
    start_processing jobs job_id filter_type =
      (.error (.httpException 400 "Invalid filter type"), jobs) := by
  simp [start_processing, hjob, hft]

/-- C7, witness. The unknown filter `"invert"` against an uploaded
job. -/
theorem start_processing_unknown_filter_witness :
    start_processing [("j2", uploadedJob)] "j2" "invert" =
      (.error (.httpException 400 "Invalid filter type"),
        [("j2", uploadedJob)]) :=
  start_processing_unknown_filter _ _ _ _ rfl (by decide)

/-- C8, counterexample. A segment file that cannot be re-read does not
make the merge fail: OpenCV raises nothing, the unreadable segment simply
contributes zero frames, and the merge succeeds (here with the first
segment's properties read as `0`). -/
theorem merge_unreadable_segment_counterexample :
    merge_segments [(⟨false, [7], 30, 640, 480⟩ : SegFile ℕ)] =
      .ok ⟨0, 0, 0, []⟩ := rfl

/-- C8, amended. `merge_segments` fails (raises
`"No segments to merge"`) exactly on an empty segment list; every non-empty
input — readable or not — succeeds, an unreadable segment silently
contributing no frames rather than raising a `MergeIOFailure`. -/
theorem merge_segments_spec (segs : List (SegFile α)) :
    (segs = [] → merge_segments segs = .error .emptyMergeSet) ∧
    (segs ≠ [] → ∃ v, merge_segments segs = .ok v) := by
  constructor
  · rintro rfl
    rfl
  · intro h
    obtain ⟨s, rest, rfl⟩ := List.exists_cons_of_ne_nil h
    exact ⟨_, rfl⟩

/-- C8, witness. The empty and a one-segment merge set. -/
theorem merge_segments_spec_witness :
    merge_segments ([] : List (SegFile ℕ)) = .error .emptyMergeSet ∧
    ∃ v, merge_segments [(⟨true, [7], 30, 2, 2⟩ : SegFile ℕ)] = .ok v :=
  ⟨(merge_segments_spec []).1 rfl,
   (merge_segments_spec [⟨true, [7], 30, 2, 2⟩]).2 (by simp)⟩

/-- C9. At startup (`jobs = {}` at import time), a missing `jobs.json`
leaves the table empty and a corrupt one is caught and replaced by the
empty table; `load_jobs` is a total function — a bad persisted state is
never a startup failure — and a corrupt file yields the empty table from
any prior state. -/
theorem load_jobs_missing_or_corrupt :
    load_jobs [] DiskState.missing = ([] : JobTable) ∧
    load_jobs [] DiskState.corrupt = ([] : JobTable) ∧
    ∀ prev : JobTable, load_jobs prev DiskState.corrupt = [] :=
  ⟨rfl, rfl, fun _ => rfl⟩

/-- C10. On any successful run with `P > 0` the reported speedup is
exactly `min(num_cores, segments)` — `round((P·m)/P, 2) = m` — and the
reported sequential time is `round(P·m, 2)`: the speedup field carries no
information from the measured timing beyond its positivity. -/
theorem reported_speedup_determined (env : PipelineEnv) (ft : String)
    (hft : ft ∈ FILTERS) (hfatal : env.fatal = none)
    (hP : 0 < env.par_time) :
    (process_video env ft).speedupField =
      some ((min env.num_cores env.segments : ℕ) : ℚ) ∧
    (process_video env ft).sequentialTimeField =
      some (pyRound2
        (env.par_time * ((min env.num_cores env.segments : ℕ) : ℚ))) := by
  obtain ⟨ha, ae, ro, fat, pt, sg, nc, op⟩ := env
  simp only at hfatal hP
  subst hfatal
  constructor <;>
    simp [process_video, hft, ProcessResult.speedupField,
      ProcessResult.sequentialTimeField, speedup_eq_min _ _ _ hP,
      ← Nat.cast_min, pyRound2_natCast, estimated_seq_time]

/-- C10, witness. `P = 2`, 4 cores, 3 segments: reported speedup `3`. -/
theorem reported_speedup_determined_witness :
    (process_video ⟨true, true, true, none, 2, 3, 4, "outputs/q.mp4"⟩
        "sepia").speedupField = some ((min 4 3 : ℕ) : ℚ) :=
  (reported_speedup_determined ⟨true, true, true, none, 2, 3, 4, "outputs/q.mp4"⟩
    "sepia" (by decide) rfl (by norm_num)).1

end RenderX
